import Mathlib

/-!
Verification of `src/celpy/c7nlib.py` (cel-python's C7N extension-function
library).  Python strings are modelled as `List Char`, CEL values as the
inductive `Value`, fallible Python code as `Except`/`Option`.
-/

set_option maxHeartbeats 1000000

namespace C7nLib

/-- Model of a CEL evaluator value (`celpy.celtypes`): the tagged union
{null, bool, int, string, list, map} that `json_to_cel` produces.  Map keys
are strings; doubles/timestamps are not needed by any claim here. -/
inductive Value where
  | vnull : Value
  | vbool (b : Bool) : Value
  | vint (n : Int) : Value
  | vstr (s : List Char) : Value
  | vlist (xs : List Value) : Value
  | vmap (kvs : List (List Char × Value)) : Value

/-! ## Python string primitives

`str.split(sep)` with an explicit separator: splits at every occurrence of
the separator, keeping empty pieces (`"a::b".split(":") == ["a","","b"]`). -/

/-- Python `str.split(sep)` for a one-character separator, on `List Char`. -/
def pySplit (sep : Char) : List Char → List (List Char)
  | [] => [[]]
  | c :: cs =>
    if c = sep then
      [] :: pySplit sep cs
    else
      match pySplit sep cs with
      | [] => [[c]]
      | p :: ps => (c :: p) :: ps

theorem pySplit_ne_nil (sep : Char) (s : List Char) : pySplit sep s ≠ [] := by
  induction s with
  | nil => simp [pySplit]
  | cons c cs ih =>
    simp only [pySplit]
    split
    · simp
    · split
      · simp
      · simp

/-- The first component of `pySplit` is exactly the text before the first
occurrence of the separator (`takeWhile`). -/
theorem pySplit_head (sep : Char) (s : List Char) :
    (pySplit sep s).headD [] = s.takeWhile (· ≠ sep) := by
  induction s with
  | nil => simp [pySplit]
  | cons c cs ih =>
    simp only [pySplit, List.takeWhile]
    by_cases h : c = sep
    · simp [h]
    · simp only [if_neg h]
      have hne : decide (c ≠ sep) = true := by simpa using h
      rw [hne]
      simp only []
      rcases hsplit : pySplit sep cs with _ | ⟨p, ps⟩
      · exact absurd hsplit (pySplit_ne_nil sep cs)
      · simp only [List.headD]
        have : (pySplit sep cs).headD [] = p := by rw [hsplit]; rfl
        rw [hsplit] at ih
        simp only [List.headD] at ih
        rw [ih]

/-! ## C1 — Ambient context (`C7NContext`, module global `C7N`,
`C7N_Interpreted_Runner.evaluate`) -/

/-- The `C7NContext` object: it holds the (possibly absent) filter
reference passed to `C7NContext(filter=...)`. -/
structure C7NContext (α : Type) where
  filter : Option α

/-- `C7NContext.__enter__`: sets the module global `C7N` to the context
object, whatever the slot held before. -/
def C7NContext.enter {α} (ctx : C7NContext α) (_slot : Option (C7NContext α)) :
    Option (C7NContext α) :=
  some ctx

/-- `C7NContext.__exit__`: sets the module global `C7N` back to `None`; it
returns `None` (falsy), so exceptions are never suppressed. -/
def C7NContext.exitSlot {α} (_slot : Option (C7NContext α)) :
    Option (C7NContext α) :=
  none

/-- Python `with`-statement semantics for a context manager whose
`__exit__` does not suppress exceptions: run `__enter__`, run the body on
the updated state, then run `__exit__` on both the normal and the
exceptional path, re-raising any exception of the body. -/
def withStmt {σ ε β : Type} (enterFn : σ → σ) (exitFn : σ → σ)
    (body : σ → Except ε β) (s : σ) : Except ε β × σ :=
  let s1 := enterFn s
  match body s1 with
  | .ok v => (.ok v, exitFn s1)
  | .error e => (.error e, exitFn s1)

/-- Module initialisation, `C7N = cast("C7NContext", None)`: the ambient
slot before the first evaluation. -/
def C7N_initial {α} : Option (C7NContext α) := none

/-- `C7N_Interpreted_Runner.evaluate(context, filter=None)`: runs the
evaluator body inside `with C7NContext(filter=filter): ...`, returning the
body's outcome and the final state of the ambient slot. -/
def runnerEvaluate {α ε β : Type} (filt : Option α)
    (body : Option (C7NContext α) → Except ε β)
    (slot : Option (C7NContext α)) : Except ε β × Option (C7NContext α) :=
  withStmt (C7NContext.enter ⟨filt⟩) C7NContext.exitSlot body slot

/-! ## C2 — `arn_split` -/

/-- The exceptions `arn_split` can raise: the explicit
`ValueError("Not an ARN: ...")`, the `KeyError` from
`field_names[len(fields)]`, and the `KeyError` from `mapping[field]`. -/
inductive ArnError where
  | notAnArn : ArnError
  | fieldCountKeyError : ArnError
  | fieldKeyError : ArnError
  deriving DecidableEq

/-- The `field_names` dictionary of `arn_split`: a 5-field tuple and a
6-field tuple, keyed by their lengths; `none` models the `KeyError` for
any other field count. -/
def fieldNames : Nat → Option (List (List Char))
  | 5 => some ["partition".toList, "service".toList, "region".toList,
      "account-id".toList, "resource-id".toList]
  | 6 => some ["partition".toList, "service".toList, "region".toList,
      "account-id".toList, "resource-type".toList, "resource-id".toList]
  | _ => none

/-- `dict(zip(names, fields))[field]`: look `field` up among the zipped
(name, value) pairs; `none` models the `KeyError`. -/
def zipLookup (names fields : List (List Char)) (field : List Char) :
    Option (List Char) :=
  ((names.zip fields).find? (fun p => p.1 == field)).map (·.2)

/-- `arn_split(arn, field)`: split on ":", validate the literal "arn"
prefix of the split, choose the 5- or 6-name tuple by field count, zip and
look the requested field up. -/
def arn_split (arn field : List Char) : Except ArnError (List Char) :=
  match pySplit ':' arn with
  | [] => Except.error ArnError.notAnArn  -- unreachable: pySplit is never empty
  | p0 :: fields =>
    if p0 ≠ "arn".toList then Except.error ArnError.notAnArn
    else
      match fieldNames fields.length with
      | none => Except.error ArnError.fieldCountKeyError
      | some names =>
        match zipLookup names fields field with
        | none => Except.error ArnError.fieldKeyError
        | some v => Except.ok v

/-! ## C3 — CIDR containment (`IPv4Network.__contains__`) -/

/-- An `IPv4Network`: the network address as a 32-bit natural plus the
prefix length. -/
structure IPv4Network where
  network_address : Nat
  prefixlen : Nat
  deriving DecidableEq

/-- `broadcast_address`: the top of the network's address range. -/
def IPv4Network.broadcast_address (n : IPv4Network) : Nat :=
  n.network_address + 2 ^ (32 - n.prefixlen) - 1

/-- `supernet_of` (stdlib `_is_subnet_of` with the arguments swapped):
boundary-inclusive range comparison
`self.network_address <= other.network_address and
self.broadcast_address >= other.broadcast_address`. -/
def IPv4Network.supernet_of (self other : IPv4Network) : Bool :=
  decide (self.network_address ≤ other.network_address) &&
    decide (other.broadcast_address ≤ self.broadcast_address)

/-- The `CIDR` union used by c7nlib: `None`, a parsed single address, or a
parsed network. -/
inductive CIDRVal where
  | noneV : CIDRVal
  | addr (a : Nat) : CIDRVal
  | net (n : IPv4Network) : CIDRVal
  deriving DecidableEq

/-- Standard membership of a single address in a network: modelled from
the stdlib `_BaseNetwork.__contains__` that the override delegates to via
`super()`: `network_address <= addr <= broadcast_address`. -/
def IPv4Network.addr_mem (self : IPv4Network) (a : Nat) : Bool :=
  decide (self.network_address ≤ a) && decide (a ≤ self.broadcast_address)

/-- c7nlib's overridden `IPv4Network.__contains__`: `None` is never
contained; a network argument uses `supernet_of`; anything else falls back
to the standard single-address membership. -/
def IPv4Network.contains (self : IPv4Network) (other : CIDRVal) : Bool :=
  match other with
  | .noneV => false
  | .net m => self.supernet_of m
  | .addr a => self.addr_mem a

theorem broadcast_ge_network (n : IPv4Network) :
    n.network_address ≤ n.broadcast_address := by
  unfold IPv4Network.broadcast_address
  have h1 : 1 ≤ 2 ^ (32 - n.prefixlen) := Nat.one_le_two_pow
  omega

/-! ## C6 — `parse_cidr` and `size_parse_cidr` -/

/-- Numeric value of an ASCII digit run. -/
def digitsToNat (s : List Char) : Nat :=
  s.foldl (fun acc c => 10 * acc + (c.toNat - 48)) 0

/-- Modelled from the stdlib: one octet of an `ipaddress` dotted quad
(Python >= 3.9 rules): non-empty, only ASCII digits, at most three of
them, no leading zero, value at most 255. -/
def parseOctet (s : List Char) : Option Nat :=
  if s.isEmpty then none
  else if ¬ s.all (·.isDigit) then none
  else if 3 < s.length then none
  else if 1 < s.length ∧ s.headD '0' = '0' then none
  else if digitsToNat s ≤ 255 then some (digitsToNat s) else none

/-- Modelled from the stdlib: `ipaddress.ip_address` / the address part of
`IPv4Network`, for IPv4 dotted quads.  IPv6 strings (also accepted by
`ip_address`) are not modelled: no claim depends on them. -/
def parseIPv4 (s : List Char) : Option Nat :=
  match pySplit '.' s with
  | [a, b, c, d] => do
    let oa ← parseOctet a
    let ob ← parseOctet b
    let oc ← parseOctet c
    let od ← parseOctet d
    pure (oa * 2 ^ 24 + ob * 2 ^ 16 + oc * 2 ^ 8 + od)
  | _ => none

/-- Modelled from the stdlib: the numeric prefix-length form of the
netmask argument, a digit run of value at most 32.  The dotted
netmask/hostmask forms are not modelled: no claim depends on them. -/
def parsePrefixLen (s : List Char) : Option Nat :=
  if s.isEmpty then none
  else if ¬ s.all (·.isDigit) then none
  else if digitsToNat s ≤ 32 then some (digitsToNat s) else none

/-- Modelled from the stdlib: `IPv4Network(str)` with the default
`strict=True`: split on "/" into at most two parts, parse address and
prefix length (32 when absent), and reject an address with host bits
set. -/
def parseIPv4Network (s : List Char) : Option IPv4Network :=
  match pySplit '/' s with
  | [a] => (parseIPv4 a).map (fun x => ⟨x, 32⟩)
  | [a, p] => do
    let x ← parseIPv4 a
    let pl ← parsePrefixLen p
    if x % 2 ^ (32 - pl) = 0 then some ⟨x, pl⟩ else none
  | _ => none

/-- `parse_cidr(value)`: use `IPv4Network` when "/" occurs in the string,
`ipaddress.ip_address` otherwise; `AddressValueError`/`ValueError` is
caught and turned into `None`. -/
def parse_cidr (value : List Char) : CIDRVal :=
  if value.contains '/' then
    match parseIPv4Network value with
    | some n => .net n
    | none => .noneV
  else
    match parseIPv4 value with
    | some a => .addr a
    | none => .noneV

/-- The exception raised when `size_parse_cidr` reads `.prefixlen` off an
`IPv4Address`, which has no such attribute. -/
inductive PyAttrError where
  | attributeError : PyAttrError
  deriving DecidableEq

/-- `size_parse_cidr(value)`: `parse_cidr`, then `cidr.prefixlen` behind a
truthiness test.  `None` is falsy and yields `None`; a network is truthy
and has `prefixlen`; a bare address is truthy but has no `prefixlen`
attribute, so the attribute access raises `AttributeError`. -/
def size_parse_cidr (value : List Char) : Except PyAttrError (Option Int) :=
  match parse_cidr value with
  | .noneV => .ok none
  | .net n => .ok (some (n.prefixlen : Int))
  | .addr _ => .error .attributeError

/-! ## C7 — `key` (tag projection) -/

/-- `dict.get(k)` on a CEL map: the value at the first binding of `k`,
`None` when absent. -/
def mapGet (m : List (List Char × Value)) (k : List Char) : Option Value :=
  (m.find? (fun p => p.1 == k)).map (·.2)

/-- The comparison `item.get("Key") == target` from `key()`'s generator:
true exactly when the record's "Key" field is the string `target` (an
absent field gives `None`, and a CEL value of another type never equals a
string). -/
def isTagMatch (target : List Char) (item : List (List Char × Value)) :
    Bool :=
  match mapGet item "Key".toList with
  | some (.vstr s) => s == target
  | _ => false

/-- `key(source, target)`: the "Value" field of the first record whose
"Key" field equals `target`; `None` when no record matches (or when the
matching record has no "Value" field). -/
def key (source : List (List (List Char × Value))) (target : List Char) :
    Option Value :=
  (source.find? (isTagMatch target)).bind
    (fun item => mapGet item "Value".toList)

/-! ## C8 — `difference` and `intersect` -/

/-- `difference(left, right)`: `bool(set(left) - set(right))` — true iff
some element of `left` is missing from `right`.  Polymorphic over an
element type with decidable equality, modelling the hashable CEL values a
Python `set` accepts. -/
def difference {α : Type} [DecidableEq α] (left right : List α) : Bool :=
  left.any (fun x => !(right.contains x))

/-- `intersect(left, right)`: `bool(set(left) & set(right))` — true iff
the two lists share an element. -/
def intersect {α : Type} [DecidableEq α] (left right : List α) : Bool :=
  left.any (fun x => right.contains x)

/-! ## C9 — `version` / `ComparableVersion` -/

/-- One component of a `LooseVersion`: a digit run converted by `int`, or
a string chunk (a lowercase-letter run, or a run of characters matched by
none of the regex alternatives, kept by `re.split`). -/
inductive VerComp where
  | num (n : Nat) : VerComp
  | chunk (s : List Char) : VerComp
  deriving DecidableEq

/-- The kind of character run the `LooseVersion` tokenizer is inside. -/
inductive RunKind where
  | digits : RunKind
  | lowers : RunKind
  | others : RunKind
  deriving DecidableEq

/-- Which regex alternative of `(\d+ | [a-z]+ | \.)` a character extends:
`none` for the dot, which separates runs and is filtered out. -/
def charKind (c : Char) : Option RunKind :=
  if c.isDigit then some .digits
  else if 'a' ≤ c && c ≤ 'z' then some .lowers
  else if c = '.' then none
  else some .others

/-- Close the current run into a component (digit runs through `int`). -/
def finishRun : Option (RunKind × List Char) → List VerComp
  | none => []
  | some (.digits, run) => [.num (digitsToNat run.reverse)]
  | some (.lowers, run) => [.chunk run.reverse]
  | some (.others, run) => [.chunk run.reverse]

/-- The `LooseVersion.parse` tokenizer: maximal digit runs become
integers, maximal lowercase runs and maximal unmatched runs stay strings,
dots are dropped (`re.split` on the component pattern plus the
`int` conversion loop).  The run accumulator keeps its characters in
reverse. -/
def looseFold : List Char → Option (RunKind × List Char) → List VerComp
  | [], cur => finishRun cur
  | c :: cs, cur =>
    match charKind c with
    | none => finishRun cur ++ looseFold cs none
    | some k =>
      match cur with
      | some (k', run) =>
        if k = k' then looseFold cs (some (k', c :: run))
        else finishRun (some (k', run)) ++ looseFold cs (some (k, [c]))
      | none => looseFold cs (some (k, [c]))

/-- `LooseVersion(value).version`: the component list. -/
def looseParse (s : List Char) : List VerComp := looseFold s none

/-- Python string `<`: lexicographic on characters. -/
def listCharLt : List Char → List Char → Bool
  | [], [] => false
  | [], _ :: _ => true
  | _ :: _, [] => false
  | c :: cs, d :: ds => if c = d then listCharLt cs ds else decide (c < d)

/-- `<` on a pair of version components: Python raises `TypeError` when an
`int` meets a `str`. -/
def compLt : VerComp → VerComp → Except Unit Bool
  | .num i, .num j => .ok (decide (i < j))
  | .chunk s, .chunk t => .ok (listCharLt s t)
  | _, _ => .error ()

/-- Python `<` on component lists: skip the equal prefix, compare the
first unequal pair (which may raise), shorter-is-smaller when one list is
a strict prefix of the other. -/
def versionLt : List VerComp → List VerComp → Except Unit Bool
  | [], [] => .ok false
  | [], _ :: _ => .ok true
  | _ :: _, [] => .ok false
  | x :: xs, y :: ys => if x = y then versionLt xs ys else compLt x y

/-- The exceptions arising inside `LooseVersion` comparison: the
`TypeError` from comparing an int component with a str component, and the
`AttributeError` from reading `.version` off a `Version` whose
`__init__` skipped `parse` (falsy `vstring`). -/
inductive VerError where
  | typeError : VerError
  | attributeError : VerError
  deriving DecidableEq

/-- `Version.__init__(vstring)`: `if vstring: self.parse(vstring)` — a
falsy (empty) string skips the parse and leaves the object without a
`.version` attribute, modelled as `none`. -/
def version (value : List Char) : Option (List VerComp) :=
  if value = [] then none else some (looseParse value)

/-- `LooseVersion.__eq__` (via `_cmp`) on the two objects' `.version`
attributes: reading a missing attribute raises `AttributeError`; equal
component lists compare equal; otherwise the `<`/`>` comparisons run —
the first may raise `TypeError` — and when they do not, the equality
outcome is `False`. -/
def looseVersionEq (a b : Option (List VerComp)) : Except VerError Bool :=
  match a, b with
  | some va, some vb =>
    if va = vb then .ok true
    else
      match versionLt va vb with
      | .error _ => .error .typeError
      | .ok _ => .ok false
  | _, _ => .error .attributeError

/-- The right operand of `ComparableVersion.__eq__`: another
`ComparableVersion` (with its optional `.version`), a raw string (which
`_cmp` converts through `LooseVersion`), or a non-version object for
which `_cmp` answers `NotImplemented` — before touching `.version` — and
the `==` operator then falls back to identity, `False` for distinct
objects. -/
inductive EqOperand where
  | ver (cs : Option (List VerComp)) : EqOperand
  | strOp (s : List Char) : EqOperand
  | other : EqOperand

/-- `ComparableVersion.__eq__`: the inherited `LooseVersion` comparison
with `TypeError` caught and turned into `False`; `AttributeError` (a
missing `.version` on either side) is not caught and propagates. -/
def comparableVersionEq (self : Option (List VerComp)) (o : EqOperand) :
    Except VerError Bool :=
  match o with
  | .other => .ok false
  | .strOp s =>
    match looseVersionEq self (version s) with
    | .ok v => .ok v
    | .error .typeError => .ok false
    | .error .attributeError => .error .attributeError
  | .ver cs =>
    match looseVersionEq self cs with
    | .ok v => .ok v
    | .error .typeError => .ok false
    | .error .attributeError => .error .attributeError

/-! ## C4, C5 — `parse_text` and `value_from` -/

/-- The characters `str.splitlines` treats as line boundaries. -/
def isLineBreak (c : Char) : Bool :=
  c = '\n' || c = '\r' || c = '\x0b' || c = '\x0c' || c = '\x1c' ||
    c = '\x1d' || c = '\x1e' || c = '\x85' || c = '\u2028' || c = '\u2029'

/-- `str.splitlines()`: the accumulator holds the current line reversed;
"\r\n" counts as one boundary; a trailing boundary opens no extra empty
line. -/
def splitlinesAux : List Char → List Char → List (List Char)
  | [], [] => []
  | [], acc => [acc.reverse]
  | '\r' :: '\n' :: rest, acc => acc.reverse :: splitlinesAux rest []
  | c :: rest, acc =>
    if isLineBreak c then acc.reverse :: splitlinesAux rest []
    else splitlinesAux rest (c :: acc)

/-- `str.splitlines()` on a whole string. -/
def splitlines (s : List Char) : List (List Char) := splitlinesAux s []

/-- The whitespace `str.rstrip()` removes (ASCII part). -/
def isPySpace (c : Char) : Bool :=
  c = ' ' || c = '\t' || c = '\n' || c = '\r' || c = '\x0b' || c = '\x0c'

/-- `str.rstrip()`: drop trailing whitespace only. -/
def rstrip (s : List Char) : List Char :=
  (s.reverse.dropWhile isPySpace).reverse

/-- JSON whitespace (RFC 8259). -/
def isJsonWs (c : Char) : Bool :=
  c = ' ' || c = '\t' || c = '\n' || c = '\r'

/-- Modelled from the stdlib: `json.loads`, restricted to
whitespace-wrapped integer documents — enough to exercise `parse_text`'s
line handling.  A blank string is not a JSON document (`json.loads("")`
raises "Expecting value"), modelled as `none`. -/
def jsonLoadsModel (s : List Char) : Option Value :=
  let t := ((s.dropWhile isJsonWs).reverse.dropWhile isJsonWs).reverse
  match t with
  | [] => none
  | '-' :: ds =>
    if !ds.isEmpty && ds.all (·.isDigit) &&
        (ds.length = 1 || !(ds.headD '0' = '0')) then
      some (.vint (-(digitsToNat ds : Int)))
    else none
  | ds =>
    if ds.all (·.isDigit) && (ds.length = 1 || !(ds.headD '0' = '0')) then
      some (.vint (digitsToNat ds))
    else none

/-- Errors `parse_text` raises or propagates: a JSON decode error from a
line or document, and the explicit `ValueError` for an unsupported
format. -/
inductive ParseTextError where
  | jsonDecodeError : ParseTextError
  | unsupportedFormat (f : List Char) : ParseTextError
  deriving DecidableEq

/-- The line loop of the line-delimited branch:
`[json_to_cel(json.loads(s)) for s in source_text.splitlines()]` — every
line, empty ones included, goes through `json.loads`, and the first
decode failure raises. -/
def parseJsonLines (loads : List Char → Option Value) :
    List (List Char) → Except ParseTextError (List Value)
  | [] => .ok []
  | l :: ls =>
    match loads l with
    | none => .error .jsonDecodeError
    | some d => (parseJsonLines loads ls).map (fun ds => d :: ds)

/-- Modelled from the stdlib: `csv.reader`, simplified to comma-splitting
per line (quoting is not modelled; no claim touches the csv branch). -/
def csvRows (text : List Char) : List (List (List Char)) :=
  (splitlines text).map (pySplit ',')

/-- Modelled from the stdlib: `csv.DictReader`, simplified like
`csvRows`: the first row is the header, later rows become header-keyed
maps. -/
def csvDictRows (text : List Char) :
    List (List (List Char × List Char)) :=
  match csvRows text with
  | [] => []
  | header :: rows => rows.map (fun r => header.zip r)

/-- `parse_text(source_text, format)`: dispatch on the format name;
parameterised by the `json.loads` function. -/
def parse_text (loads : List Char → Option Value)
    (source_text fmt : List Char) : Except ParseTextError Value :=
  if fmt = "json".toList then
    match loads source_text with
    | some d => .ok d
    | none => .error .jsonDecodeError
  else if fmt = "txt".toList then
    .ok (.vlist ((splitlines source_text).map (fun s => .vstr (rstrip s))))
  else if fmt = "ldjson".toList ∨ fmt = "ndjson".toList ∨
      fmt = "jsonl".toList then
    (parseJsonLines loads (splitlines source_text)).map .vlist
  else if fmt = "csv".toList then
    .ok (.vlist ((csvRows source_text).map
      (fun r => .vlist (r.map (fun c => .vstr c)))))
  else if fmt = "csv2dict".toList then
    .ok (.vlist ((csvDictRows source_text).map
      (fun m => .vmap (m.map (fun p => (p.1, Value.vstr p.2))))))
  else .error (.unsupportedFormat fmt)

/-- The last path component of the URL (the text after the last "/"), as
`os.path.splitext` isolates it. -/
def lastComponent (p : List Char) : List Char :=
  (p.reverse.takeWhile (· ≠ '/')).reverse

/-- Modelled from the stdlib: `os.path.splitext(url)[1][1:]` — the text
after the last "." of the last path component; empty when that component
has no dot, or only leading dots up to the last dot (hidden-file rule). -/
def urlSuffixFormat (url : List Char) : List Char :=
  let base := lastComponent url
  let revBase := base.reverse
  let afterDot := revBase.takeWhile (· ≠ '.')
  if afterDot.length = revBase.length then []
  else if (base.take (base.length - afterDot.length - 1)).all (· = '.') then
    []
  else afterDot.reverse

/-- The `supported_formats` tuple of `value_from`. -/
def supportedFormats : List (List Char) :=
  ["json".toList, "ndjson".toList, "ldjson".toList, "jsonl".toList,
    "txt".toList, "csv".toList, "csv2dict".toList]

/-- Errors out of `value_from`. -/
inductive ValueFromError where
  | unsupportedFormat (f : List Char) : ValueFromError
  | transportError : ValueFromError
  | parseError (e : ParseTextError) : ValueFromError
  deriving DecidableEq

/-- The format `value_from` uses: the explicit argument when present and
non-empty (`if not format:` — Python truthiness), else the one derived
from the URL suffix. -/
def deriveFormat (url : List Char) (format : Option (List Char)) :
    List Char :=
  match format with
  | none => urlSuffixFormat url
  | some f => if f.isEmpty then urlSuffixFormat url else f

/-- `value_from(url, format=None)`, instrumented with a Boolean recording
whether `text_from` (the network fetch) ran: derive the format, reject an
unsupported one before fetching, else fetch and `parse_text`. -/
def value_from (loads : List Char → Option Value)
    (fetch : List Char → Except Unit (List Char))
    (url : List Char) (format : Option (List Char)) :
    Except ValueFromError Value × Bool :=
  let fmt := deriveFormat url format
  if supportedFormats.contains fmt then
    match fetch url with
    | .error _ => (.error .transportError, true)
    | .ok raw =>
      match parse_text loads raw fmt with
      | .ok v => (.ok v, true)
      | .error e => (.error (.parseError e), true)
  else (.error (.unsupportedFormat fmt), false)

/-! ## C10 — `resource_schedule` -/

/-- A day/hour record as the c7n `ScheduleParser` produces it (shape
documented in `resource_schedule`'s docstring). -/
structure TimeRec where
  days : List Nat
  hour : Nat
  deriving DecidableEq

/-- A value of the parsed schedule dictionary: the "tz" entry holds a
string, every state entry holds a list of day/hour records. -/
inductive SchedEntry where
  | tzv (z : List Char) : SchedEntry
  | times (ts : List TimeRec) : SchedEntry
  deriving DecidableEq

/-- An output record of `resource_schedule`: a day/hour pair with the
document timezone flattened on.  The `tz` field carries whatever value
the "tz" entry held (a string for ScheduleParser documents). -/
structure OutRec where
  days : List Nat
  hour : Nat
  tz : SchedEntry
  deriving DecidableEq

/-- The `TypeError` the dict comprehension raises when a state entry does
not hold a record list. -/
inductive SchedError where
  | typeError : SchedError
  deriving DecidableEq

/-- The "tz" dictionary key. -/
def tzKey : List Char := "tz".toList

/-- The popped timezone, `c7n_sched_doc.pop("tz", "et")`: the value at
the "tz" key, defaulting to "et". -/
def popTzValue (doc : List (List Char × SchedEntry)) : SchedEntry :=
  ((doc.find? (fun kv => kv.1 == tzKey)).map (·.2)).getD
    (.tzv "et".toList)

/-- The dict comprehension of `resource_schedule`: rebuild every
remaining entry's record list with the timezone flattened onto each
record; a state entry holding a string raises `TypeError`. -/
def flattenStates (tz : SchedEntry) :
    List (List Char × SchedEntry) →
      Except SchedError (List (List Char × List OutRec))
  | [] => .ok []
  | kv :: rest =>
    match kv.2 with
    | .times ts =>
      (flattenStates tz rest).map
        (fun acc => (kv.1, ts.map (fun t => ⟨t.days, t.hour, tz⟩)) :: acc)
    | .tzv _ => .error .typeError

/-- `resource_schedule(tag_value)` on the already-parsed schedule
document: pop "tz" (default "et") out of the dictionary, then flatten the
timezone onto every record of every remaining state entry. -/
def resource_schedule (doc : List (List Char × SchedEntry)) :
    Except SchedError (List (List Char × List OutRec)) :=
  flattenStates (popTzValue doc) (doc.eraseP (fun kv => kv.1 == tzKey))

theorem flattenStates_mem (tz : SchedEntry)
    (rest : List (List Char × SchedEntry))
    (res : List (List Char × List OutRec))
    (h : flattenStates tz rest = .ok res) :
    ∀ st ∈ res, (∃ kv ∈ rest, st.1 = kv.1) ∧ ∀ r ∈ st.2, r.tz = tz := by
  induction rest generalizing res with
  | nil =>
    simp only [flattenStates] at h
    cases h
    exact fun st hst => absurd hst (List.not_mem_nil st)
  | cons kv rest ih =>
    intro st hst
    unfold flattenStates at h
    cases hkv : kv.2 with
    | tzv z =>
      rw [hkv] at h
      exact absurd h (by simp)
    | times ts =>
      rw [hkv] at h
      cases hrec : flattenStates tz rest with
      | error e =>
        rw [hrec] at h
        exact absurd h (by simp [Except.map])
      | ok acc =>
        rw [hrec] at h
        simp only [Except.map, Except.ok.injEq] at h
        subst h
        rcases List.mem_cons.mp hst with rfl | hmem
        · refine ⟨⟨kv, by simp, rfl⟩, ?_⟩
          intro r hr
          simp only [List.mem_map] at hr
          rcases hr with ⟨t, _, rfl⟩
          rfl
        · rcases ih acc hrec st hmem with ⟨⟨kv2, hkv2, heq⟩, htz⟩
          exact ⟨⟨kv2, by simp [hkv2], heq⟩, htz⟩

theorem eraseP_no_tz (doc : List (List Char × SchedEntry))
    (hkeys : (doc.map Prod.fst).Nodup) :
    ∀ kv ∈ doc.eraseP (fun kv => kv.1 == tzKey), kv.1 ≠ tzKey := by
  induction doc with
  | nil => simp
  | cons e rest ih =>
    rw [List.map_cons, List.nodup_cons] at hkeys
    intro kv hkv
    rw [List.eraseP_cons] at hkv
    cases hbe : (e.1 == tzKey) with
    | true =>
      rw [hbe, cond_true] at hkv
      have he : e.1 = tzKey := by simpa using hbe
      intro hc
      exact hkeys.1 (by
        rw [he, ← hc]
        exact List.mem_map_of_mem Prod.fst hkv)
    | false =>
      rw [hbe, cond_false] at hkv
      have he : ¬ e.1 = tzKey := by simpa using hbe
      rcases List.mem_cons.mp hkv with rfl | hmem
      · exact he
      · exact ih hkeys.2 kv hmem

/-- C10: when the parsed schedule document has no "tz" entry, the default
timezone "et" is flattened onto every record; in every case the returned
document has no top-level "tz" key, and every day/hour record in every
state list carries a `tz` field equal to the single popped document
timezone. -/
theorem claim_C10_resource_schedule
    (doc : List (List Char × SchedEntry))
    (res : List (List Char × List OutRec))
    (hkeys : (doc.map Prod.fst).Nodup)
    (hres : resource_schedule doc = .ok res) :
    (doc.find? (fun kv => kv.1 == tzKey) = none →
      ∀ st ∈ res, ∀ r ∈ st.2, r.tz = SchedEntry.tzv "et".toList) ∧
    (∀ st ∈ res, st.1 ≠ tzKey) ∧
    (∀ st ∈ res, ∀ r ∈ st.2, r.tz = popTzValue doc) := by
  unfold resource_schedule at hres
  have hmem := flattenStates_mem (popTzValue doc) _ res hres
  refine ⟨?_, ?_, ?_⟩
  · intro hfind st hst r hr
    rw [(hmem st hst).2 r hr]
    simp [popTzValue, hfind]
  · intro st hst
    rcases (hmem st hst).1 with ⟨kv, hkv, heq⟩
    rw [heq]
    exact eraseP_no_tz doc hkeys kv hkv
  · intro st hst r hr
    exact (hmem st hst).2 r hr

/-- C10 witness: a document without "tz" gets "et" on its record; a
document with `tz: "pt"` loses its top-level "tz" key. -/
theorem claim_C10_resource_schedule_witness :
    resource_schedule [("off".toList, SchedEntry.times [⟨[0], 18⟩])]
      = Except.ok
          [("off".toList, [⟨[0], 18, SchedEntry.tzv "et".toList⟩])] ∧
    (OutRec.mk [0] 18 (SchedEntry.tzv "et".toList)).tz
      = SchedEntry.tzv "et".toList ∧
    "off".toList ≠ tzKey := by
  refine ⟨rfl, ?_, ?_⟩
  · have h := claim_C10_resource_schedule
      [("off".toList, SchedEntry.times [⟨[0], 18⟩])]
      [("off".toList, [⟨[0], 18, SchedEntry.tzv "et".toList⟩])]
      (by decide) rfl
    exact h.1 rfl ("off".toList, [⟨[0], 18, SchedEntry.tzv "et".toList⟩])
      (by simp) ⟨[0], 18, SchedEntry.tzv "et".toList⟩ (by simp)
  · have h := claim_C10_resource_schedule
      [("off".toList, SchedEntry.times [⟨[0], 18⟩]),
        (tzKey, SchedEntry.tzv "pt".toList)]
      [("off".toList, [⟨[0], 18, SchedEntry.tzv "pt".toList⟩])]
      (by decide) rfl
    exact h.2.1 ("off".toList, [⟨[0], 18, SchedEntry.tzv "pt".toList⟩])
      (by simp)

end C7nLib

deriving instance DecidableEq for Except

namespace C7nLib

/-- C1: the ambient context slot (module global `C7N`) is `none` before the
first evaluation starts; `C7N_Interpreted_Runner.evaluate` runs the
evaluator body with the `C7NContext` holding the filter installed in the
slot; and after `evaluate` returns the slot is cleared again, from any
starting state, both when the body returns a value and when it raises
(the body's outcome is propagated unchanged). -/
theorem claim_C1_ambient_context {α ε β : Type} (filt : Option α)
    (body : Option (C7NContext α) → Except ε β) (slot : Option (C7NContext α)) :
    (C7N_initial : Option (C7NContext α)) = none ∧
    runnerEvaluate filt body slot = (body (some ⟨filt⟩), none) := by
  refine ⟨rfl, ?_⟩
  cases hb : body (some ⟨filt⟩) <;>
    simp [runnerEvaluate, withStmt, C7NContext.enter, C7NContext.exitSlot, hb]

/-- C2 counterexample: on the slash-form ARN
`"arn:aws:ec2:us-east-1:1234:instance/i-0"` the text `instance/i-0`
occupies the single `resource-id` field of the 5-field shape, the mapping
has no `resource-type` entry, and `arn_split(..., "resource-type")` raises
a `KeyError` instead of returning `"instance"`. -/
theorem claim_C2_counterexample :
    ¬ (arn_split "arn:aws:ec2:us-east-1:1234:instance/i-0".toList
        "resource-type".toList = Except.ok "instance".toList) := by
  decide

/-- C2 (amended): `arn_split("arn:aws:s3:::my-bucket","resource-id")`
returns `"my-bucket"`; the colon-form
`arn_split("arn:aws:ec2:us-east-1:1234:instance:i-0","resource-type")`
returns `"instance"`, while on the slash-form ARN the `resource-type`
lookup raises a `KeyError` because `instance/i-0` occupies the single
`resource-id` field; and for every ARN string whose text before the first
":" is not the literal `"arn"`, `arn_split` raises the "Not an ARN"
error. -/
theorem claim_C2_arn_split (arn field : List Char)
    (h : arn.takeWhile (· ≠ ':') ≠ "arn".toList) :
    arn_split "arn:aws:s3:::my-bucket".toList "resource-id".toList
      = Except.ok "my-bucket".toList ∧
    arn_split "arn:aws:ec2:us-east-1:1234:instance:i-0".toList
      "resource-type".toList = Except.ok "instance".toList ∧
    arn_split "arn:aws:ec2:us-east-1:1234:instance/i-0".toList
      "resource-type".toList = Except.error ArnError.fieldKeyError ∧
    arn_split arn field = Except.error ArnError.notAnArn := by
  refine ⟨by decide, by decide, by decide, ?_⟩
  rcases hs : pySplit ':' arn with _ | ⟨p0, fields⟩
  · exact absurd hs (pySplit_ne_nil ':' arn)
  · have hp0 : p0 = arn.takeWhile (· ≠ ':') := by
      have hh := pySplit_head ':' arn
      rw [hs] at hh
      simpa using hh
    have hne : p0 ≠ "arn".toList := by rw [hp0]; exact h
    unfold arn_split
    rw [hs]
    simp only [ne_eq, ite_not]
    rw [if_neg hne]

/-- C2 witness: a concrete string with a non-"arn" prefix raises the
"Not an ARN" error. -/
theorem claim_C2_arn_split_witness :
    arn_split "xyz:aws:s3:::b".toList "resource-id".toList
      = Except.error ArnError.notAnArn :=
  (claim_C2_arn_split "xyz:aws:s3:::b".toList "resource-id".toList
    (by decide)).2.2.2

/-- C3: network-in-network containment holds exactly when every address of
the inner network lies in the outer one (equivalently, the outer network
is a supernet of or equal to the inner one); every network contains
itself; address-in-network containment is the standard boundary-inclusive
membership; and the null value is contained in nothing. -/
theorem claim_C3_cidr_containment (A B : IPv4Network) (a : Nat) :
    (A.contains (.net B) = true ↔
      ∀ x, B.addr_mem x = true → A.addr_mem x = true) ∧
    (A.contains (.net B) = true ↔ A.supernet_of B = true) ∧
    A.contains (.net A) = true ∧
    A.contains (.addr a) = A.addr_mem a ∧
    A.contains CIDRVal.noneV = false := by
  have hmem : ∀ (N : IPv4Network) (x : Nat),
      N.addr_mem x = true ↔
        N.network_address ≤ x ∧ x ≤ N.broadcast_address := by
    intro N x
    simp [IPv4Network.addr_mem]
  have hsup : A.supernet_of B = true ↔
      A.network_address ≤ B.network_address ∧
        B.broadcast_address ≤ A.broadcast_address := by
    simp [IPv4Network.supernet_of]
  refine ⟨?_, Iff.rfl, ?_, rfl, rfl⟩
  · show A.supernet_of B = true ↔ _
    rw [hsup]
    constructor
    · rintro ⟨h1, h2⟩ x hx
      rw [hmem] at hx ⊢
      exact ⟨le_trans h1 hx.1, le_trans hx.2 h2⟩
    · intro h
      have hlo := h B.network_address
        ((hmem B _).mpr ⟨le_refl _, broadcast_ge_network B⟩)
      have hhi := h B.broadcast_address
        ((hmem B _).mpr ⟨broadcast_ge_network B, le_refl _⟩)
      rw [hmem] at hlo hhi
      exact ⟨hlo.1, hhi.2⟩
  · show A.supernet_of A = true
    simp [IPv4Network.supernet_of]

/-- C3 witness: `10.0.0.0/8` contains the single address `10.1.2.3` and
contains itself, and contains neither null nor `11.0.0.0/8`. -/
theorem claim_C3_cidr_containment_witness :
    (IPv4Network.mk 167772160 8).contains (CIDRVal.addr 167838211) = true ∧
    (IPv4Network.mk 167772160 8).contains
      (CIDRVal.net (IPv4Network.mk 167772160 8)) = true ∧
    (IPv4Network.mk 167772160 8).contains CIDRVal.noneV = false := by
  have h := claim_C3_cidr_containment (IPv4Network.mk 167772160 8)
    (IPv4Network.mk 167772160 8) 167838211
  exact ⟨by rw [h.2.2.2.1]; decide, h.2.2.1, h.2.2.2.2⟩

/-- C6 counterexample: `"10.0.0.1"` has no "/", parses as a bare address,
and `size_parse_cidr` then raises `AttributeError` reading `.prefixlen`
off an `IPv4Address` — it does not return the prefix length or null
without raising, as the claim states. -/
theorem claim_C6_counterexample :
    size_parse_cidr "10.0.0.1".toList
      = Except.error PyAttrError.attributeError := by
  decide

/-- C6 (amended): `parse_cidr(s)` parses s as a network block when s
contains "/" and as a single address otherwise, returning null on
malformed input without raising any error; `size_parse_cidr(s)` returns
the integer prefix length when s parses as a network and null when s does
not parse, but raises `AttributeError` when s parses as a bare single
address. -/
theorem claim_C6_parse_cidr (s : List Char) :
    (s.contains '/' = true →
      parse_cidr s = (parseIPv4Network s).elim CIDRVal.noneV CIDRVal.net) ∧
    (s.contains '/' = false →
      parse_cidr s = (parseIPv4 s).elim CIDRVal.noneV CIDRVal.addr) ∧
    (∀ n, parse_cidr s = .net n →
      size_parse_cidr s = .ok (some (n.prefixlen : Int))) ∧
    (parse_cidr s = .noneV → size_parse_cidr s = .ok none) ∧
    (∀ a, parse_cidr s = .addr a →
      size_parse_cidr s = .error .attributeError) := by
  refine ⟨?_, ?_, ?_, ?_, ?_⟩
  · intro h
    unfold parse_cidr
    rw [if_pos h]
    cases parseIPv4Network s <;> rfl
  · intro h
    unfold parse_cidr
    rw [if_neg (by rw [h]; simp)]
    cases parseIPv4 s <;> rfl
  · intro n hn
    unfold size_parse_cidr
    rw [hn]
  · intro hn
    unfold size_parse_cidr
    rw [hn]
  · intro x hx
    unfold size_parse_cidr
    rw [hx]

/-- C6 witness: concrete instances — `"10.0.0.0/8"` yields prefix length
8, `"not-an-ip"` yields null, and `"10.0.0.1"` raises. -/
theorem claim_C6_parse_cidr_witness :
    size_parse_cidr "10.0.0.0/8".toList = Except.ok (some 8) ∧
    size_parse_cidr "not-an-ip".toList = Except.ok none ∧
    size_parse_cidr "10.0.0.1".toList
      = Except.error PyAttrError.attributeError :=
  ⟨(claim_C6_parse_cidr "10.0.0.0/8".toList).2.2.1
      (IPv4Network.mk 167772160 8) (by decide),
   (claim_C6_parse_cidr "not-an-ip".toList).2.2.2.1 (by decide),
   (claim_C6_parse_cidr "10.0.0.1".toList).2.2.2.2 167772161 (by decide)⟩

/-- C7: `key` returns the "Value" field of the first record whose "Key"
field equals the target — whatever records surround it, as long as no
earlier record matches — and returns null when no record of the list
matches; it is total (absence never raises). -/
theorem claim_C7_key (pre post L : List (List (List Char × Value)))
    (item : List (List Char × Value)) (target : List Char)
    (hpre : ∀ x ∈ pre, isTagMatch target x = false)
    (hitem : isTagMatch target item = true)
    (hnone : ∀ x ∈ L, isTagMatch target x = false) :
    key (pre ++ item :: post) target = mapGet item "Value".toList ∧
    key L target = none := by
  constructor
  · have hfind : (pre ++ item :: post).find? (isTagMatch target)
        = some item := by
      induction pre with
      | nil => simp [List.find?_cons_of_pos, hitem]
      | cons y ys ih =>
        have hy : isTagMatch target y = false := hpre y (by simp)
        rw [List.cons_append, List.find?_cons_of_neg _ (by simp [hy])]
        exact ih (fun x hx => hpre x (List.mem_cons_of_mem y hx))
    simp [key, hfind]
  · have hfind : L.find? (isTagMatch target) = none := by
      rw [List.find?_eq_none]
      intro x hx
      simp [hnone x hx]
    simp [key, hfind]

/-- C7 witness: with a non-matching record in front and one behind, `key`
returns the "Value" of the first record keyed "Name", and on a list with
no matching record it returns null. -/
theorem claim_C7_key_witness :
    key [[("Key".toList, Value.vstr "env".toList),
          ("Value".toList, Value.vstr "dev".toList)],
         [("Key".toList, Value.vstr "Name".toList),
          ("Value".toList, Value.vstr "prod".toList)],
         [("Key".toList, Value.vstr "Name".toList),
          ("Value".toList, Value.vstr "other".toList)]] "Name".toList
      = some (Value.vstr "prod".toList) ∧
    key [[("Key".toList, Value.vstr "env".toList),
          ("Value".toList, Value.vstr "dev".toList)]] "Name".toList
      = none := by
  have h := claim_C7_key
    [[("Key".toList, Value.vstr "env".toList),
      ("Value".toList, Value.vstr "dev".toList)]]
    [[("Key".toList, Value.vstr "Name".toList),
      ("Value".toList, Value.vstr "other".toList)]]
    [[("Key".toList, Value.vstr "env".toList),
      ("Value".toList, Value.vstr "dev".toList)]]
    [("Key".toList, Value.vstr "Name".toList),
     ("Value".toList, Value.vstr "prod".toList)]
    "Name".toList
    (by intro x hx; simp at hx; subst hx; rfl)
    (by rfl)
    (by intro x hx; simp at hx; subst hx; rfl)
  exact ⟨h.1.trans rfl, h.2⟩

/-- C8: `difference(a,b)` is true exactly when some element of `a` is
missing from `b` (the set difference is non-empty), `intersect(a,b)` is
true exactly when the lists share an element (the set intersection is
non-empty), and both are unchanged under any permutation of either input
list. -/
theorem claim_C8_difference_intersect {α : Type} [DecidableEq α]
    (a a' b b' : List α) (ha : a.Perm a') (hb : b.Perm b') :
    (difference a b = true ↔ ∃ x ∈ a, x ∉ b) ∧
    (intersect a b = true ↔ ∃ x ∈ a, x ∈ b) ∧
    difference a b = difference a' b' ∧
    intersect a b = intersect a' b' := by
  have hdiff : ∀ (u v : List α),
      difference u v = true ↔ ∃ x ∈ u, x ∉ v := by
    intro u v
    simp [difference, List.any_eq_true]
  have hint : ∀ (u v : List α),
      intersect u v = true ↔ ∃ x ∈ u, x ∈ v := by
    intro u v
    simp [intersect, List.any_eq_true]
  refine ⟨hdiff a b, hint a b, ?_, ?_⟩
  · rw [Bool.eq_iff_iff, hdiff, hdiff]
    constructor
    · rintro ⟨x, hx, hxb⟩
      exact ⟨x, ha.mem_iff.mp hx, fun hc => hxb (hb.mem_iff.mpr hc)⟩
    · rintro ⟨x, hx, hxb⟩
      exact ⟨x, ha.mem_iff.mpr hx, fun hc => hxb (hb.mem_iff.mp hc)⟩
  · rw [Bool.eq_iff_iff, hint, hint]
    constructor
    · rintro ⟨x, hx, hxb⟩
      exact ⟨x, ha.mem_iff.mp hx, hb.mem_iff.mp hxb⟩
    · rintro ⟨x, hx, hxb⟩
      exact ⟨x, ha.mem_iff.mpr hx, hb.mem_iff.mpr hxb⟩

/-- C8 witness: concrete permuted lists of CEL integers give identical
`difference`/`intersect` results. -/
theorem claim_C8_difference_intersect_witness :
    difference [(1 : Int), 2] [2] = difference [2, 1] [2] ∧
    intersect [(1 : Int), 2] [2] = intersect [2, 1] [2] := by
  have h := claim_C8_difference_intersect [(1 : Int), 2] [2, 1] [2] [2]
    (by decide) (by decide)
  exact ⟨h.2.2.1, h.2.2.2⟩

/-- C9 counterexample: `version("")` skips the parse (`if vstring:`), so
testing it for equality against another version value raises an uncaught
`AttributeError` (only `TypeError` is caught) instead of returning false
— the claim's universal over every string s fails at the empty string. -/
theorem claim_C9_counterexample :
    comparableVersionEq (version "".toList)
      (EqOperand.ver (version "1.2".toList))
      = Except.error VerError.attributeError := by
  decide

/-- C9 (amended): for every non-empty string s, `version(s)` builds a
comparable version value, and testing it for equality never raises:
against another non-empty-built version the outcome is exactly
component-list equality, so an incomparable pair — one exists, `"1.a"`
versus `"1.2"` — has its `TypeError` caught and compares false, and a
non-version operand compares false through `NotImplemented`; for the
empty string, however, `Version.__init__` skips the parse and an
equality test against a version operand raises `AttributeError`, though
a non-version operand still compares false. -/
theorem claim_C9_version (s t : List Char) (hs : s ≠ []) (ht : t ≠ []) :
    comparableVersionEq (version s) (EqOperand.ver (version t))
      = Except.ok (decide (looseParse s = looseParse t)) ∧
    (looseVersionEq (version s) (version t) = Except.error .typeError →
      comparableVersionEq (version s) (EqOperand.ver (version t))
        = Except.ok false) ∧
    comparableVersionEq (version s) EqOperand.other = Except.ok false ∧
    comparableVersionEq (version "".toList) (EqOperand.ver (version t))
      = Except.error VerError.attributeError ∧
    comparableVersionEq (version "".toList) EqOperand.other
      = Except.ok false ∧
    looseVersionEq (version "1.a".toList) (version "1.2".toList)
      = Except.error VerError.typeError := by
  have hv : version s = some (looseParse s) := by
    unfold version
    rw [if_neg hs]
  have hw : version t = some (looseParse t) := by
    unfold version
    rw [if_neg ht]
  have h1 : comparableVersionEq (version s) (EqOperand.ver (version t))
      = Except.ok (decide (looseParse s = looseParse t)) := by
    rw [hv, hw]
    unfold comparableVersionEq looseVersionEq
    by_cases h : looseParse s = looseParse t
    · simp [h]
    · cases hlt : versionLt (looseParse s) (looseParse t) <;> simp [h, hlt]
  refine ⟨h1, ?_, rfl, ?_, rfl, by decide⟩
  · intro herr
    rw [h1]
    by_cases h : looseParse s = looseParse t
    · exfalso
      rw [hv, hw] at herr
      unfold looseVersionEq at herr
      simp [h] at herr
    · simp [h]
  · cases hvt : version t <;> rfl

/-- C9 witness: the incomparable pair `version("1.a")`/`version("1.2")`
compares false with its `TypeError` caught, and the non-empty hypotheses
are discharged concretely. -/
theorem claim_C9_version_witness :
    comparableVersionEq (version "1.a".toList)
      (EqOperand.ver (version "1.2".toList)) = Except.ok false :=
  (claim_C9_version "1.a".toList "1.2".toList (by decide) (by decide)).2.1
    (by decide)

theorem parseJsonLines_ok (loads : List Char → Option Value)
    (ls : List (List Char)) (ds : List Value)
    (h : List.Forall₂ (fun l d => loads l = some d) ls ds) :
    parseJsonLines loads ls = .ok ds := by
  induction h with
  | nil => rfl
  | cons hld _ ih => simp [parseJsonLines, hld, ih, Except.map]

theorem parseJsonLines_err (loads : List Char → Option Value)
    (ls : List (List Char)) (h : ∃ l ∈ ls, loads l = none) :
    parseJsonLines loads ls = .error .jsonDecodeError := by
  induction ls with
  | nil => simp at h
  | cons l ls ih =>
    rcases h with ⟨x, hx, hnone⟩
    rcases List.mem_cons.mp hx with rfl | hmem
    · simp [parseJsonLines, hnone]
    · cases hl : loads l with
      | none => simp [parseJsonLines, hl]
      | some d => simp [parseJsonLines, hl, ih ⟨x, hmem, hnone⟩, Except.map]

/-- C5 counterexample: on `"1\n\n2"` with an ndjson format the middle
empty line goes through `json.loads`, which fails on an empty document,
so `parse_text` raises instead of returning the two documents the claim
promises. -/
theorem claim_C5_counterexample :
    ¬ (parse_text jsonLoadsModel "1\n\n2".toList "ndjson".toList
        = Except.ok (Value.vlist [Value.vint 1, Value.vint 2])) := by
  intro h
  rw [show parse_text jsonLoadsModel "1\n\n2".toList "ndjson".toList
      = Except.error ParseTextError.jsonDecodeError from rfl] at h
  exact Except.noConfusion h

/-- C5 (amended): with a line-delimited format (`ldjson`/`ndjson`/
`jsonl`), `parse_text` returns one parsed JSON document per line of the
text when every line parses — empty lines are not skipped: any
non-parsing line, an empty one included, raises a JSON decode error —
and with format `txt` it returns one trailing-whitespace-trimmed string
per line. -/
theorem claim_C5_parse_text (loads : List Char → Option Value)
    (text fmt : List Char) (docs : List Value)
    (hfmt : fmt = "ldjson".toList ∨ fmt = "ndjson".toList ∨
      fmt = "jsonl".toList) :
    (List.Forall₂ (fun l d => loads l = some d) (splitlines text) docs →
      parse_text loads text fmt = .ok (.vlist docs) ∧
      docs.length = (splitlines text).length) ∧
    ((∃ l ∈ splitlines text, loads l = none) →
      parse_text loads text fmt = .error .jsonDecodeError) ∧
    parse_text loads text "txt".toList
      = .ok (.vlist ((splitlines text).map (fun s => Value.vstr (rstrip s)))) := by
  have hdispatch : parse_text loads text fmt
      = (parseJsonLines loads (splitlines text)).map Value.vlist := by
    rcases hfmt with h | h | h <;> subst h <;> rfl
  refine ⟨?_, ?_, rfl⟩
  · intro hf
    rw [hdispatch, parseJsonLines_ok loads _ docs hf]
    exact ⟨rfl, hf.length_eq.symm⟩
  · intro hex
    rw [hdispatch, parseJsonLines_err loads _ hex]
    rfl

/-- C5 witness: `"1\n2"` parses to one document per line under `ndjson`;
`"1\n\n2"` raises on its empty line; `"a \nb"` under `txt` yields the
right-trimmed lines. -/
theorem claim_C5_parse_text_witness :
    parse_text jsonLoadsModel "1\n2".toList "ndjson".toList
      = Except.ok (Value.vlist [Value.vint 1, Value.vint 2]) ∧
    parse_text jsonLoadsModel "1\n\n2".toList "ndjson".toList
      = Except.error ParseTextError.jsonDecodeError ∧
    parse_text jsonLoadsModel "a \nb".toList "txt".toList
      = Except.ok (Value.vlist [Value.vstr ['a'], Value.vstr ['b']]) := by
  refine ⟨?_, ?_, ?_⟩
  · exact ((claim_C5_parse_text jsonLoadsModel "1\n2".toList
      "ndjson".toList [Value.vint 1, Value.vint 2]
      (Or.inr (Or.inl rfl))).1
      (List.Forall₂.cons rfl (List.Forall₂.cons rfl List.Forall₂.nil))).1
  · exact (claim_C5_parse_text jsonLoadsModel "1\n\n2".toList
      "ndjson".toList [] (Or.inr (Or.inl rfl))).2.1 ⟨[], by decide, rfl⟩
  · exact (claim_C5_parse_text jsonLoadsModel "a \nb".toList
      "ndjson".toList [] (Or.inr (Or.inl rfl))).2.2

/-- C4: whenever the format — the explicit argument when given and
non-empty, else the one derived from the URL suffix — is not one of the
supported formats, `value_from` returns the unsupported-format error with
the fetch flag still false (`text_from` was never invoked), and its
outcome does not depend on the fetch function at all. -/
theorem claim_C4_value_from (loads : List Char → Option Value)
    (fetch : List Char → Except Unit (List Char))
    (url : List Char) (format : Option (List Char))
    (h : supportedFormats.contains (deriveFormat url format) = false) :
    value_from loads fetch url format
      = (.error (.unsupportedFormat (deriveFormat url format)), false) ∧
    ∀ fetch₂, value_from loads fetch url format
      = value_from loads fetch₂ url format := by
  have hval : ∀ f : List Char → Except Unit (List Char),
      value_from loads f url format
        = (.error (.unsupportedFormat (deriveFormat url format)), false) := by
    intro f
    unfold value_from
    rw [if_neg (by rw [h]; simp)]
  exact ⟨hval fetch, fun f₂ => (hval fetch).trans (hval f₂).symm⟩

/-- C4 witness: a `.xml` URL with no explicit format is rejected before
any fetch, whatever the fetch function would have returned. -/
theorem claim_C4_value_from_witness :
    value_from jsonLoadsModel (fun _ => Except.ok "1".toList)
      "https://host/data.xml".toList none
      = (Except.error (ValueFromError.unsupportedFormat "xml".toList),
          false) :=
  (claim_C4_value_from jsonLoadsModel (fun _ => Except.ok "1".toList)
    "https://host/data.xml".toList none (by decide)).1

end C7nLib
